import Mathlib

/-!
Verification of the media transcoding and thumbnailing pipeline of the
memento-mori repository (memento_mori/media.py, class InstagramMediaProcessor).

The Python code is shallowly embedded: pure fragments become Lean functions,
the mutable filename map becomes explicit state passing, and filesystem
operations become an explicit effect list.  hashlib.md5 is embedded as a
complete executable MD5 implementation on byte lists; pathlib.PurePosixPath
is embedded by the component model it documents (split on "/", drop empty
and "." components).
-/

set_option maxRecDepth 100000

namespace MementoMori

/-! ## 32-bit modular arithmetic and MD5 (model of hashlib.md5) -/

def M32 : Nat := 4294967296

def add32 (a b : Nat) : Nat := (a + b) % M32

def not32 (a : Nat) : Nat := Nat.xor a (M32 - 1)

def rotl32 (x s : Nat) : Nat := (x * 2 ^ s) % M32 + x / 2 ^ (32 - s)

/-- MD5 round constants K, the standard table floor(2^32 * abs(sin(i+1))). -/
def kTable : List Nat :=
  [0xd76aa478, 0xe8c7b756, 0x242070db, 0xc1bdceee,
   0xf57c0faf, 0x4787c62a, 0xa8304613, 0xfd469501,
   0x698098d8, 0x8b44f7af, 0xffff5bb1, 0x895cd7be,
   0x6b901122, 0xfd987193, 0xa679438e, 0x49b40821,
   0xf61e2562, 0xc040b340, 0x265e5a51, 0xe9b6c7aa,
   0xd62f105d, 0x02441453, 0xd8a1e681, 0xe7d3fbc8,
   0x21e1cde6, 0xc33707d6, 0xf4d50d87, 0x455a14ed,
   0xa9e3e905, 0xfcefa3f8, 0x676f02d9, 0x8d2a4c8a,
   0xfffa3942, 0x8771f681, 0x6d9d6122, 0xfde5380c,
   0xa4beea44, 0x4bdecfa9, 0xf6bb4b60, 0xbebfbc70,
   0x289b7ec6, 0xeaa127fa, 0xd4ef3085, 0x04881d05,
   0xd9d4d039, 0xe6db99e5, 0x1fa27cf8, 0xc4ac5665,
   0xf4292244, 0x432aff97, 0xab9423a7, 0xfc93a039,
   0x655b59c3, 0x8f0ccc92, 0xffeff47d, 0x85845dd1,
   0x6fa87e4f, 0xfe2ce6e0, 0xa3014314, 0x4e0811a1,
   0xf7537e82, 0xbd3af235, 0x2ad7d2bb, 0xeb86d391]

def kAt (i : Nat) : Nat := kTable.getD i 0

def sAt (i : Nat) : Nat :=
  ([[7, 12, 17, 22], [5, 9, 14, 20], [4, 11, 16, 23], [6, 10, 15, 21]].getD (i / 16) []).getD
    (i % 4) 0

def mixF (i b c d : Nat) : Nat :=
  if i < 16 then Nat.lor (Nat.land b c) (Nat.land (not32 b) d)
  else if i < 32 then Nat.lor (Nat.land d b) (Nat.land (not32 d) c)
  else if i < 48 then Nat.xor (Nat.xor b c) d
  else Nat.xor c (Nat.lor b (not32 d))

def gAt (i : Nat) : Nat :=
  if i < 16 then i
  else if i < 32 then (5 * i + 1) % 16
  else if i < 48 then (3 * i + 5) % 16
  else (7 * i) % 16

structure MDState where
  a : Nat
  b : Nat
  c : Nat
  d : Nat
deriving DecidableEq

def md5Round (M : Nat → Nat) (st : MDState) (i : Nat) : MDState :=
  let f := add32 (add32 (add32 (mixF i st.b st.c st.d) st.a) (kAt i)) (M (gAt i))
  ⟨st.d, add32 st.b (rotl32 f (sAt i)), st.b, st.c⟩

/-- The j-th little-endian 32-bit word of a 64-byte chunk. -/
def leWord (chunk : List Nat) (j : Nat) : Nat :=
  chunk.getD (4 * j) 0 + 256 * chunk.getD (4 * j + 1) 0 + 65536 * chunk.getD (4 * j + 2) 0 +
    16777216 * chunk.getD (4 * j + 3) 0

def md5Chunk (st : MDState) (chunk : List Nat) : MDState :=
  let e := (List.range 64).foldl (md5Round (leWord chunk)) st
  ⟨add32 st.a e.a, add32 st.b e.b, add32 st.c e.c, add32 st.d e.d⟩

def md5Init : MDState := ⟨0x67452301, 0xefcdab89, 0x98badcfe, 0x10325476⟩

def le4 (n : Nat) : List Nat :=
  [n % 256, n / 256 % 256, n / 65536 % 256, n / 16777216 % 256]

def le8 (n : Nat) : List Nat := le4 (n % M32) ++ le4 (n / M32)

/-- MD5 padding: append 0x80, zero bytes up to 56 mod 64, then the 64-bit
little-endian bit length of the message. -/
def md5Pad (msg : List Nat) : List Nat :=
  let len := msg.length
  let zeros := (120 - (len + 1) % 64) % 64
  msg ++ [128] ++ List.replicate zeros 0 ++ le8 (len * 8 % 2 ^ 64)

def chunks64Fuel : Nat → List Nat → List (List Nat)
  | 0, _ => []
  | _, [] => []
  | fuel + 1, l => l.take 64 :: chunks64Fuel fuel (l.drop 64)

/-- Split a byte list into 64-byte chunks (the padded message length is a
multiple of 64, and each step consumes at least one byte, so the length
itself is enough fuel). -/
def chunks64 (l : List Nat) : List (List Nat) := chunks64Fuel l.length l

def md5Bytes (msg : List Nat) : List Nat :=
  let st := (chunks64 (md5Pad msg)).foldl md5Chunk md5Init
  le4 st.a ++ le4 st.b ++ le4 st.c ++ le4 st.d

def hexDigitChar (n : Nat) : Char :=
  if n < 10 then Char.ofNat (48 + n) else Char.ofNat (87 + n)

def byteHex (b : Nat) : List Char := [hexDigitChar (b / 16), hexDigitChar (b % 16)]

/-- UTF-8 encoding of one character (model of Python str.encode()). -/
def utf8Char (c : Char) : List Nat :=
  let n := c.toNat
  if n < 128 then [n]
  else if n < 2048 then [192 + n / 64, 128 + n % 64]
  else if n < 65536 then [224 + n / 4096, 128 + n / 64 % 64, 128 + n % 64]
  else [240 + n / 262144, 128 + n / 4096 % 64, 128 + n / 64 % 64, 128 + n % 64]

def utf8 (s : String) : List Nat := (s.toList.map utf8Char).flatten

/-- Model of hashlib.md5(s.encode()).hexdigest(). -/
def md5HexStr (s : String) : String := String.mk ((md5Bytes (utf8 s)).map byteHex).flatten

theorem md5_test_vector_empty : md5HexStr "" = "d41d8cd98f00b204e9800998ecf8427e" := by decide

theorem md5_test_vector_abc : md5HexStr "abc" = "900150983cd24fb0d6963f7d28e17f72" := by decide

/-! ## String helpers (models of the Python string operations used) -/

/-- Model of Python str.startswith. -/
def strStartsWith (s p : String) : Bool := p.toList.isPrefixOf s.toList

/-- Ends-with test on strings; an anchored case-sensitive suffix match. -/
def strEndsWith (s e : String) : Bool := e.toList.isSuffixOf s.toList

def lowerChar (c : Char) : Char :=
  if 'A' ≤ c ∧ c ≤ 'Z' then Char.ofNat (c.toNat + 32) else c

/-- Model of Python str.lower restricted to ASCII (media extensions and
reference paths in this pipeline are ASCII). -/
def pyLower (s : String) : String := String.mk (s.toList.map lowerChar)

def replaceFuel (pat rep : List Char) : Nat → List Char → List Char
  | 0, s => s
  | _, [] => []
  | fuel + 1, c :: rest =>
    if pat.isPrefixOf (c :: rest) then
      rep ++ replaceFuel pat rep fuel (List.drop (pat.length - 1) rest)
    else c :: replaceFuel pat rep fuel rest

/-- Model of Python str.replace(pat, rep): replaces every non-overlapping
occurrence, left to right; an empty pattern inserts the replacement before
every character and at the end. -/
def pyReplace (s pat rep : String) : String :=
  if pat = "" then
    String.mk (rep.toList ++ (s.toList.map (fun c => c :: rep.toList)).flatten)
  else String.mk (replaceFuel pat.toList rep.toList s.toList.length s.toList)

/-! ## pathlib.PurePosixPath model

A POSIX path parses to (absolute?, components); parsing splits on "/" and
drops empty and "." components.  This mirrors PurePosixPath for the relative
media-reference paths this pipeline handles (".." is kept as a component,
like pathlib does). -/

def splitCharAux (cs : List Char) (cur : List Char) : List (List Char) :=
  match cs with
  | [] => [cur.reverse]
  | c :: rest => if c = '/' then cur.reverse :: splitCharAux rest [] else splitCharAux rest (c :: cur)

def pyParts (s : String) : List String :=
  ((splitCharAux s.toList []).map String.mk).filter fun c => !(c == "" || c == ".")

structure PyPath where
  absolute : Bool
  parts : List String
deriving DecidableEq

def pyPath (s : String) : PyPath := ⟨strStartsWith s "/", pyParts s⟩

/-- Model of Path.name: the final component, or "" for an empty path. -/
def PyPath.name (p : PyPath) : String := p.parts.getLastD ""

/-- Model of Path.parent: drop the final component. -/
def PyPath.parent (p : PyPath) : PyPath := ⟨p.absolute, p.parts.dropLast⟩

/-- Model of str(Path): "." for a relative empty path, "/" for the root,
otherwise the components joined by "/". -/
def PyPath.toStr (p : PyPath) : String :=
  match p.parts with
  | [] => if p.absolute then "/" else "."
  | _ => (if p.absolute then "/" else "") ++ String.intercalate "/" p.parts

/-- Model of Path.suffix on a file name: the substring from the last dot,
empty when the name has no dot, starts with its only dot, or ends with the
dot. -/
def pySuffixOf (name : String) : String :=
  match (name.toList.reverse.findIdx? fun c => c == '.') with
  | none => ""
  | some j =>
    let i := name.toList.length - 1 - j
    if 0 < i ∧ i + 1 < name.toList.length then String.mk (name.toList.drop i) else ""

/-- Model of str(Path(a) / b). -/
def pyJoin (a b : String) : String :=
  let pb := pyPath b
  if pb.absolute then pb.toStr
  else PyPath.toStr ⟨(pyPath a).absolute, (pyPath a).parts ++ pb.parts⟩

theorem pyPath_test_dot_component : pyPath "./x.jpg" = pyPath "x.jpg" := by decide

theorem pySuffix_test : pySuffixOf "a.b.jpg" = ".jpg" ∧ pySuffixOf ".bashrc" = "" ∧
    pySuffixOf "x." = "" ∧ pySuffixOf "noext" = "" := by decide

theorem pyReplace_test : pyReplace "a.jpg.jpg" ".jpg" ".webp" = "a.webp.webp" ∧
    pyReplace "ab" "" "X" = "XaXbX" := by decide

/-! ## shorten_filename (media.py lines 52-94)

The method keys a dict self.filename_map by the original path; the computed
short name depends only on the parsed path, never on the dict, so the dict
is pure memoisation.  The dict becomes an explicit association list. -/

abbrev ShortMap := List (String × String)

/-- The value shorten_filename computes for a path that reaches the hashing
branch: first 8 hex chars of the MD5 of the base name, plus the lowercased
original extension, re-attached under the original parent directory. -/
def shortenOfPath (po : PyPath) : String :=
  let filename := po.name
  let extension := pyLower (pySuffixOf filename)
  let newFilename := String.mk ((md5HexStr filename).toList.take 8) ++ extension
  if po.parent = ⟨false, []⟩ then newFilename
  else PyPath.toStr ⟨po.parent.absolute, po.parent.parts ++ [newFilename]⟩

def shortenPure (p : String) : String := shortenOfPath (pyPath p)

/-- InstagramMediaProcessor.shorten_filename: state-passing embedding.
Empty strings (falsy) and data URIs are returned unchanged without touching
the map; otherwise the memoised value is returned if present, else computed
and inserted. -/
def shorten_filename (m : ShortMap) (p : String) : String × ShortMap :=
  if p = "" then (p, m)
  else if strStartsWith p "data:" then (p, m)
  else
    match m.lookup p with
    | some v => (v, m)
    | none => (shortenPure p, (p, shortenPure p) :: m)

/-- The value shorten_filename returns, as a pure function of the path. -/
def shortenResult (p : String) : String :=
  if p = "" then p
  else if strStartsWith p "data:" then p
  else shortenPure p

/-- A map state is consistent when every memoised entry stores the value the
code computes for its key; every state reachable from the empty map through
shorten_filename calls (in any interleaving) is consistent. -/
def Consistent (m : ShortMap) : Prop := ∀ kv ∈ m, kv.2 = shortenPure kv.1

theorem consistent_nil : Consistent [] := by
  intro kv h
  exact absurd h (List.not_mem_nil kv)

theorem lookup_mem {m : ShortMap} {k v : String} (h : m.lookup k = some v) : (k, v) ∈ m := by
  induction m with
  | nil => simp [List.lookup] at h
  | cons a t ih =>
    rw [List.lookup] at h
    split at h
    · next heq =>
      cases h
      have hk : k = a.1 := by simpa using heq
      subst hk
      exact List.mem_cons_self a t
    · exact List.mem_cons_of_mem a (ih h)

theorem shorten_eq {m : ShortMap} (h : Consistent m) (p : String) :
    (shorten_filename m p).1 = shortenResult p := by
  unfold shorten_filename shortenResult
  split
  · rfl
  · split
    · rfl
    · cases hl : m.lookup p with
      | none => simp
      | some v => simpa using h (p, v) (lookup_mem hl)

theorem shorten_consistent {m : ShortMap} (h : Consistent m) (p : String) :
    Consistent (shorten_filename m p).2 := by
  unfold shorten_filename
  split
  · exact h
  · split
    · exact h
    · cases hl : m.lookup p with
      | none =>
        simp only
        intro kv hkv
        rcases List.mem_cons.mp hkv with h1 | h2
        · rw [h1]
        · exact h kv h2
      | some v => simpa using h

/-! ## copy_file_to_distribution (media.py lines 233-275)

Filesystem writes become an explicit effect list; the presence of source
files is an oracle on joined path strings.  The booleans is_image/is_video
mirror the case-insensitive anchored extension regexes of lines 255-256. -/

inductive Effect where
  | mkdirParents (dir : String)
  | warnMissing (src : String)
  | convertWebp (src dst : String)
  | copy2 (src dst : String)
  | thumbnail (src rel : String)
deriving DecidableEq

def image_exts : List String := [".jpg", ".jpeg", ".png", ".gif"]

def video_exts : List String := [".mp4", ".mov", ".avi", ".webm"]

/-- re.search of a backslash-dot (jpg|jpeg|png|gif) dollar pattern with re.I. -/
def isImagePath (p : String) : Bool := image_exts.any fun e => strEndsWith (pyLower p) e

/-- re.search of a backslash-dot (mp4|mov|avi|webm) dollar pattern with re.I. -/
def isVideoPath (p : String) : Bool := video_exts.any fun e => strEndsWith (pyLower p) e

def copy_file_to_distribution (ex : String → Bool) (xdir outdir : String) (m : ShortMap)
    (file_path : String) (quiet : Bool) : Bool × ShortMap × List Effect :=
  if strStartsWith file_path "data:image" then (true, m, [])
  else
    let source := pyJoin xdir file_path
    let sm := shorten_filename m file_path
    let destination := pyJoin outdir sm.1
    let mk := Effect.mkdirParents ((pyPath destination).parent.toStr)
    if ex source = false then
      (false, sm.2, if quiet then [mk] else [mk, .warnMissing source])
    else if isImagePath file_path then
      let wdst := pyReplace destination (pySuffixOf (pyPath destination).name) ".webp"
      (true, sm.2, [mk, .convertWebp source wdst, .thumbnail source sm.1])
    else if isVideoPath file_path then
      (true, sm.2, [mk, .copy2 source destination, .thumbnail source sm.1])
    else
      (true, sm.2, [mk, .copy2 source destination])

/-! ## convert_to_webp size policy (media.py lines 277-330)

After a successful encode the code compares sizes: the WebP is kept only if
it is nonempty and strictly smaller than the original; otherwise it is
unlinked and the original is copied verbatim under its original extension,
so exactly one representation remains at the destination. -/

inductive Kept where
  | webp
  | original
deriving DecidableEq

def convert_to_webp_keeps (original_size webp_size : Nat) : Kept :=
  if 0 < webp_size ∧ webp_size < original_size then .webp else .original

def convert_to_webp_keptSize (original_size webp_size : Nat) : Nat :=
  match convert_to_webp_keeps original_size webp_size with
  | .webp => webp_size
  | .original => original_size

/-! ## fix_file_extensions, per-file decision (media.py lines 386-445)

For one scanned file: skip by the extension denylist, skip non-media MIME
types, then pick the canonical extension from the fixed table, falling back
to mimetypes.guess_extension (passed here as an oracle argument) and then to
the current extension; rename exactly when the choice differs. -/

def mime_to_ext : List (String × String) :=
  [("image/jpeg", ".jpg"), ("image/png", ".png"), ("image/gif", ".gif"),
   ("image/webp", ".webp"), ("image/heic", ".heic"), ("video/mp4", ".mp4"),
   ("video/quicktime", ".mov"), ("video/webm", ".webm")]

def ext_denylist : List String := [".json", ".txt", ".srt", ".csv", ".html", ".xml", ".md"]

inductive ExtAction where
  | untouched
  | renamed (newExt : String)
deriving DecidableEq

def fixExtensionStep (file_mime : String) (guess : Option String) (current_ext : String) :
    ExtAction :=
  if ext_denylist.contains current_ext then .untouched
  else if !(strStartsWith file_mime "image/" || strStartsWith file_mime "video/") then .untouched
  else
    let correct_ext :=
      match mime_to_ext.lookup file_mime with
      | some e => e
      | none => match guess with
                | some g => g
                | none => current_ext
    if correct_ext ≠ current_ext then .renamed correct_ext else .untouched

/-! ## generate_thumbnail (media.py lines 477-586)

The thumbnail cache is a map from cache filename to written image.  Decoding
(PIL for images, cv2 frame extraction for videos) is an oracle from source
path to: none when the file is absent, some none when decoding or frame
extraction fails, some (some img) when a raster image is obtained.  The
returned Bool records whether the source was opened at all. -/

structure Img where
  width : Nat
  height : Nat
  data : Nat
deriving DecidableEq

structure ThumbFS where
  thumbs : List (String × Img)
deriving DecidableEq

/-- The thumbnail cache filename: MD5 hex of the relative_path argument plus
".webp" (media.py line 489). -/
def thumbFilename (relative_path : String) : String := md5HexStr relative_path ++ ".webp"

/-- The center square crop of lines 563-572: (src_x, src_y, src_w, src_h). -/
def cropRect (w h : Nat) : Nat × Nat × Nat × Nat :=
  if w > h then ((w - h) / 2, 0, h, h) else (0, (h - w) / 2, w, w)

/-- Img.crop: the cropped data is an opaque but injective function of the
source data and the rectangle; the new dimensions are those of the rectangle. -/
def cropImg (img : Img) (r : Nat × Nat × Nat × Nat) : Img :=
  ⟨r.2.2.1, r.2.2.2, Nat.pair img.data (Nat.pair r.1 (Nat.pair r.2.1 (Nat.pair r.2.2.1 r.2.2.2)))⟩

/-- Img.resize with LANCZOS: deterministic data, dimensions as requested. -/
def resizeImg (img : Img) (w h : Nat) : Img := ⟨w, h, Nat.pair img.data (Nat.pair w h)⟩

/-- The image written to the thumbnail cache: center square crop then resize
to the fixed 292 by 292 target (lines 497-498 and 574-576). -/
def thumbOf (img : Img) : Img :=
  resizeImg (cropImg img (cropRect img.width img.height)) 292 292

def generate_thumbnail (srcFS : String → Option (Option Img)) (tfs : ThumbFS)
    (source_path relative_path : String) : Option String × ThumbFS × Bool :=
  if (tfs.thumbs.lookup (thumbFilename relative_path)).isSome then
    (some (thumbFilename relative_path), tfs, false)
  else
    match srcFS source_path with
    | none => (none, tfs, false)
    | some none => (none, tfs, true)
    | some (some img) =>
      (some (thumbFilename relative_path),
       ⟨(thumbFilename relative_path, thumbOf img) :: tfs.thumbs⟩, true)

/-! ## The per-file worker loop of process_media_files (media.py lines 150-158)

executor.map(self.copy_file_to_distribution, all_media) calls the copy with
quiet left at its default True; the run never aborts on a missing file and
collects one Bool per reference. -/

def processAll (ex : String → Bool) (xdir outdir : String) (m : ShortMap) :
    List String → ShortMap × List Bool
  | [] => (m, [])
  | f :: fs =>
    let r := copy_file_to_distribution ex xdir outdir m f true
    let rest := processAll ex xdir outdir r.2.1 fs
    (rest.1, r.1 :: rest.2)

def countTrue (l : List Bool) : Nat := l.countP fun b => b

/-! ## Claims -/

/-- C5 (confirmed): shorten_filename is deterministic: starting from any two
consistent map states — as produced by any interleaving of prior calls within
a run, or by two separate runs — the same original path yields the same short
path, and an immediately repeated call returns the memoised value unchanged. -/
theorem c5_shorten_deterministic (p : String) (m₁ m₂ : ShortMap)
    (h₁ : Consistent m₁) (h₂ : Consistent m₂) :
    (shorten_filename m₁ p).1 = (shorten_filename m₂ p).1 ∧
    (shorten_filename (shorten_filename m₁ p).2 p).1 = (shorten_filename m₁ p).1 := by
  refine ⟨?_, ?_⟩
  · rw [shorten_eq h₁, shorten_eq h₂]
  · rw [shorten_eq (shorten_consistent h₁ p), shorten_eq h₁]

theorem c5_witness :
    (shorten_filename [] "media/posts/a.jpg").1 = (shorten_filename [] "media/posts/a.jpg").1 ∧
    (shorten_filename (shorten_filename [] "media/posts/a.jpg").2 "media/posts/a.jpg").1 =
      (shorten_filename [] "media/posts/a.jpg").1 :=
  c5_shorten_deterministic "media/posts/a.jpg" [] [] consistent_nil consistent_nil

/-- C2 counterexample: the distinct original paths "./x.jpg" and "x.jpg",
shortened one after the other in one run, both map to the short path
"3e602dd0.jpg"; no incrementing-suffix resolution takes place, so the mapping
is not injective. -/
theorem c2_counterexample :
    ("./x.jpg" : String) ≠ "x.jpg" ∧
    (shorten_filename [] "./x.jpg").1 = "3e602dd0.jpg" ∧
    (shorten_filename (shorten_filename [] "./x.jpg").2 "x.jpg").1 = "3e602dd0.jpg" := by
  refine ⟨by decide, by decide, by decide⟩

/-- C2 (corrected): the mapping is deterministic but not injective: the short
path is a pure function of the parsed path (parent components, MD5 prefix of
the base name, lowercased extension), there is no collision detection or
numeric-suffix resolution, and any two path strings that parse to the same
path — even when the strings differ — receive the same short path. -/
theorem c2_shorten_not_injective (p₁ p₂ : String) (m : ShortMap) (hc : Consistent m)
    (h₁ : p₁ ≠ "") (h₂ : p₂ ≠ "")
    (d₁ : strStartsWith p₁ "data:" = false) (d₂ : strStartsWith p₂ "data:" = false)
    (hp : pyPath p₁ = pyPath p₂) :
    (shorten_filename (shorten_filename m p₁).2 p₂).1 = (shorten_filename m p₁).1 := by
  rw [shorten_eq (shorten_consistent hc p₁), shorten_eq hc]
  simp [shortenResult, h₁, h₂, d₁, d₂, shortenPure, hp]

theorem c2_witness :
    (shorten_filename (shorten_filename [] "./x.jpg").2 "x.jpg").1 =
      (shorten_filename [] "./x.jpg").1 :=
  c2_shorten_not_injective "./x.jpg" "x.jpg" [] consistent_nil (by decide) (by decide)
    (by decide) (by decide) (by decide)

/-- C3 counterexample: with a 100-byte original and a zero-byte encoded WebP
the encoded output is strictly smaller, yet convert_to_webp discards it and
keeps the original, so the destination does not hold the smaller of the two
representations. -/
theorem c3_counterexample :
    (0 : Nat) < 100 ∧ convert_to_webp_keeps 100 0 = Kept.original ∧
    convert_to_webp_keptSize 100 0 ≠ min 100 0 := by decide

/-- C3 (corrected): the destination holds exactly one representation: the
WebP precisely when the encode is nonempty and strictly smaller than the
source; whenever the encode is not strictly smaller (and also when it is
empty) the encoded output is discarded and the original is copied verbatim;
the kept size never exceeds the original size. -/
theorem c3_transcode_fallback (original_size webp_size : Nat) :
    (convert_to_webp_keeps original_size webp_size = Kept.webp ↔
      0 < webp_size ∧ webp_size < original_size) ∧
    (¬ webp_size < original_size →
      convert_to_webp_keeps original_size webp_size = Kept.original) ∧
    convert_to_webp_keptSize original_size webp_size ≤ original_size := by
  refine ⟨⟨fun he => ?_, fun hc => ?_⟩, fun hn => ?_, ?_⟩
  · by_contra hc
    rw [convert_to_webp_keeps, if_neg hc] at he
    exact absurd he (by simp)
  · rw [convert_to_webp_keeps, if_pos hc]
  · rw [convert_to_webp_keeps, if_neg (by omega)]
  · rw [convert_to_webp_keptSize]
    by_cases h : 0 < webp_size ∧ webp_size < original_size
    · rw [convert_to_webp_keeps, if_pos h]
      exact le_of_lt h.2
    · rw [convert_to_webp_keeps, if_neg h]

/-- C4 counterexample: a media file whose detected MIME type image/bmp has no
entry in the fixed table is nevertheless renamed, because the code falls back
to the platform mimetypes guess (".bmp" here) and it differs from the current
extension ".jpg". -/
theorem c4_counterexample :
    mime_to_ext.lookup "image/bmp" = none ∧
    fixExtensionStep "image/bmp" (some ".bmp") ".jpg" = ExtAction.renamed ".bmp" := by
  refine ⟨by decide, by decide⟩

/-- C4 (corrected): a media file whose detected MIME type has no entry in the
fixed table is not necessarily left untouched: the code falls back to the
platform mimetypes guess and renames exactly when that guess exists and
differs from the current extension; the extension is assumed correct (no
rename, no record) only when the guess is absent or agrees with it. -/
theorem c4_no_table_entry (file_mime current_ext : String) (guess : Option String)
    (hm : mime_to_ext.lookup file_mime = none)
    (hmedia : strStartsWith file_mime "image/" = true ∨ strStartsWith file_mime "video/" = true)
    (hden : ext_denylist.contains current_ext = false) :
    fixExtensionStep file_mime guess current_ext = ExtAction.untouched ↔
      guess = none ∨ guess = some current_ext := by
  have hb : (strStartsWith file_mime "image/" || strStartsWith file_mime "video/") = true := by
    rcases hmedia with h | h <;> simp [h]
  unfold fixExtensionStep
  rw [hden, if_neg (by simp), hb, if_neg (by simp), hm]
  cases guess with
  | none => simp
  | some g =>
    by_cases hg : g = current_ext
    · subst hg; simp
    · simp [hg]

theorem c4_witness :
    mime_to_ext.lookup "image/bmp" = none ∧
    (fixExtensionStep "image/bmp" none ".jpg" = ExtAction.untouched ↔
      (none : Option String) = none ∨ (none : Option String) = some ".jpg") :=
  ⟨by decide,
   c4_no_table_entry "image/bmp" ".jpg" none (by decide) (Or.inl (by decide)) (by decide)⟩

/-- C9 counterexample: the inline data URI "data:video/mp4;base64,AA" is not
returned immediately by copy_file_to_distribution: the guard only matches
"data:image", so the URI is treated as a path, a destination parent directory
"o/data:video" is created, and the call returns False. -/
theorem c9_counterexample :
    strStartsWith "data:video/mp4;base64,AA" "data:" = true ∧
    copy_file_to_distribution (fun _ => false) "x" "o" [] "data:video/mp4;base64,AA" true =
      (false, [], [Effect.mkdirParents "o/data:video"]) := by
  refine ⟨by decide, by decide⟩

/-- C9 (corrected): shorten_filename passes every data URI through unchanged
without touching the mapping, but copy_file_to_distribution returns
immediately (True, no filesystem effect) only for URIs starting with
"data:image"; any other data URI falls through to normal path processing —
its destination parent directory is created and, the joined source path being
absent, the call returns False. -/
theorem c9_data_uri (m : ShortMap) (uri : String) (ex : String → Bool)
    (xdir outdir : String) (q : Bool) (h : strStartsWith uri "data:" = true) :
    shorten_filename m uri = (uri, m) ∧
    (strStartsWith uri "data:image" = true →
      copy_file_to_distribution ex xdir outdir m uri q = (true, m, [])) ∧
    (strStartsWith uri "data:image" = false → ex (pyJoin xdir uri) = false →
      copy_file_to_distribution ex xdir outdir m uri q =
        (false, m,
          if q then [Effect.mkdirParents ((pyPath (pyJoin outdir uri)).parent.toStr)]
          else [Effect.mkdirParents ((pyPath (pyJoin outdir uri)).parent.toStr),
                Effect.warnMissing (pyJoin xdir uri)])) := by
  have hne : uri ≠ "" := by
    intro e
    subst e
    exact absurd h (by decide)
  have hsh : shorten_filename m uri = (uri, m) := by
    unfold shorten_filename
    rw [if_neg hne, if_pos h]
  refine ⟨hsh, fun hi => ?_, fun hi hex => ?_⟩
  · unfold copy_file_to_distribution
    rw [if_pos hi]
  · unfold copy_file_to_distribution
    rw [if_neg (by simp [hi]), hsh]
    simp [hex]

theorem c9_witness :
    shorten_filename [] "data:video/mp4;base64,AA" = ("data:video/mp4;base64,AA", []) ∧
    (copy_file_to_distribution (fun _ => false) "x" "o" [] "data:video/mp4;base64,AA" true).1 =
      false := by
  have h := c9_data_uri [] "data:video/mp4;base64,AA" (fun _ => false) "x" "o" true (by decide)
  exact ⟨h.1, by rw [h.2.2 (by decide) (by decide)]⟩

/-- C6 (confirmed): thumbnail generation is idempotent: with no cache entry
for the key, a call decodes the source and writes the thumbnail; a second
call on the same key then returns the same cache path immediately with the
read flag false (the source is not opened) and leaves the cache unchanged,
hence byte-identical; more generally, any pre-existing cache entry for the
key makes the call an immediate no-op returning the cached path. -/
theorem c6_thumbnail_idempotent (srcFS : String → Option (Option Img)) (tfs : ThumbFS)
    (sp rp : String) (img t : Img)
    (h0 : tfs.thumbs.lookup (thumbFilename rp) = none)
    (h1 : srcFS sp = some (some img)) :
    generate_thumbnail srcFS tfs sp rp =
      (some (thumbFilename rp), ⟨(thumbFilename rp, thumbOf img) :: tfs.thumbs⟩, true) ∧
    generate_thumbnail srcFS ⟨(thumbFilename rp, thumbOf img) :: tfs.thumbs⟩ sp rp =
      (some (thumbFilename rp), ⟨(thumbFilename rp, thumbOf img) :: tfs.thumbs⟩, false) ∧
    generate_thumbnail srcFS ⟨(thumbFilename rp, t) :: tfs.thumbs⟩ sp rp =
      (some (thumbFilename rp), ⟨(thumbFilename rp, t) :: tfs.thumbs⟩, false) := by
  refine ⟨?_, ?_, ?_⟩
  · simp [generate_thumbnail, h0, h1]
  · simp [generate_thumbnail, List.lookup]
  · simp [generate_thumbnail, List.lookup]

theorem c6_witness :
    generate_thumbnail (fun _ => some (some ⟨100, 50, 7⟩)) ⟨[]⟩ "ex/a.jpg" "k.jpg" =
      (some (thumbFilename "k.jpg"), ⟨[(thumbFilename "k.jpg", thumbOf ⟨100, 50, 7⟩)]⟩, true) ∧
    generate_thumbnail (fun _ => some (some ⟨100, 50, 7⟩))
        ⟨[(thumbFilename "k.jpg", thumbOf ⟨100, 50, 7⟩)]⟩ "ex/a.jpg" "k.jpg" =
      (some (thumbFilename "k.jpg"), ⟨[(thumbFilename "k.jpg", thumbOf ⟨100, 50, 7⟩)]⟩, false) :=
  have h := c6_thumbnail_idempotent (fun _ => some (some ⟨100, 50, 7⟩)) ⟨[]⟩ "ex/a.jpg" "k.jpg"
    ⟨100, 50, 7⟩ ⟨1, 1, 0⟩ rfl rfl
  ⟨h.1, h.2.1⟩

/-- C7 (confirmed): every thumbnail the generator writes is exactly 292 by
292: the written image is the center square crop — height-sized and
horizontally centered when width > height, width-sized and vertically
centered when height >= width, always within bounds — resized to the fixed
292 by 292 target. -/
theorem c7_thumbnail_square (srcFS : String → Option (Option Img)) (tfs : ThumbFS)
    (sp rp : String) (img : Img)
    (h0 : tfs.thumbs.lookup (thumbFilename rp) = none)
    (h1 : srcFS sp = some (some img)) :
    (generate_thumbnail srcFS tfs sp rp).2.1.thumbs.lookup (thumbFilename rp) =
      some (thumbOf img) ∧
    (thumbOf img).width = 292 ∧ (thumbOf img).height = 292 ∧
    (cropRect img.width img.height).2.2.1 = (cropRect img.width img.height).2.2.2 ∧
    (cropRect img.width img.height).2.2.1 = min img.width img.height ∧
    (cropRect img.width img.height).1 + (cropRect img.width img.height).2.2.1 ≤ img.width ∧
    (cropRect img.width img.height).2.1 + (cropRect img.width img.height).2.2.2 ≤ img.height ∧
    (img.width > img.height →
      cropRect img.width img.height =
        ((img.width - img.height) / 2, 0, img.height, img.height)) ∧
    (img.height ≥ img.width →
      cropRect img.width img.height =
        (0, (img.height - img.width) / 2, img.width, img.width)) := by
  have hw : (generate_thumbnail srcFS tfs sp rp).2.1.thumbs.lookup (thumbFilename rp) =
      some (thumbOf img) := by
    simp [generate_thumbnail, h0, h1, List.lookup]
  refine ⟨hw, rfl, rfl, ?_, ?_, ?_, ?_, ?_, ?_⟩ <;>
    by_cases hwh : img.width > img.height <;>
      simp [cropRect, hwh] <;> omega

/-- C1 counterexample: for the reference "x.jpg" the pipeline keys the
thumbnail by the shortened path "3e602dd0.jpg", so the cache filename is the
MD5 of the shortened path, which differs from the MD5 of the logical
(pre-shortening) reference "x.jpg". -/
theorem c1_counterexample :
    (copy_file_to_distribution (fun _ => true) "ex" "out" [] "x.jpg" true).2.2.contains
      (Effect.thumbnail "ex/x.jpg" "3e602dd0.jpg") = true ∧
    shortenPure "x.jpg" = "3e602dd0.jpg" ∧
    thumbFilename "3e602dd0.jpg" = "2ed2428f2461c1d620c08df626ccaaf8.webp" ∧
    thumbFilename "x.jpg" = "3e602dd0ab83a3a8c3f32309bb9a88f9.webp" ∧
    thumbFilename "3e602dd0.jpg" ≠ thumbFilename "x.jpg" := by
  refine ⟨by decide, by decide, by decide, by decide, by decide⟩

/-- C1 (corrected): the thumbnail cache filename is the MD5 of the SHORTENED
reference path plus ".webp", not of the logical path.  Because shortening is
deterministic, the key is still a function of the logical reference alone —
independent of map state and of processing order — so the expected thumbnail
path remains recomputable from the original reference string, and the
generator only ever returns that filename for the key the pipeline passes. -/
theorem c1_thumbnail_key (ex : String → Bool) (xdir outdir : String) (m : ShortMap)
    (p : String) (q : Bool) (srcFS : String → Option (Option Img)) (tfs : ThumbFS)
    (hc : Consistent m) (hd : strStartsWith p "data:image" = false)
    (hs : ex (pyJoin xdir p) = true) (him : isImagePath p = true) :
    (copy_file_to_distribution ex xdir outdir m p q).2.2.contains
      (Effect.thumbnail (pyJoin xdir p) (shortenResult p)) = true ∧
    ((generate_thumbnail srcFS tfs (pyJoin xdir p) (shortenResult p)).1 = none ∨
     (generate_thumbnail srcFS tfs (pyJoin xdir p) (shortenResult p)).1 =
       some (md5HexStr (shortenResult p) ++ ".webp")) := by
  constructor
  · have hsh := shorten_eq hc p
    unfold copy_file_to_distribution
    rw [if_neg (by simp [hd])]
    simp [hs, him, hsh]
  · unfold generate_thumbnail
    split
    · right
      rfl
    · split
      · left
        rfl
      · left
        rfl
      · right
        rfl

theorem c1_witness :
    (copy_file_to_distribution (fun _ => true) "ex" "out" [] "x.jpg" true).2.2.contains
      (Effect.thumbnail (pyJoin "ex" "x.jpg") (shortenResult "x.jpg")) = true ∧
    ((generate_thumbnail (fun _ => none) ⟨[]⟩ (pyJoin "ex" "x.jpg") (shortenResult "x.jpg")).1 =
        none ∨
     (generate_thumbnail (fun _ => none) ⟨[]⟩ (pyJoin "ex" "x.jpg") (shortenResult "x.jpg")).1 =
       some (md5HexStr (shortenResult "x.jpg") ++ ".webp")) :=
  c1_thumbnail_key (fun _ => true) "ex" "out" [] "x.jpg" true (fun _ => none) ⟨[]⟩
    consistent_nil (by decide) rfl (by decide)

/-- If a string ends with a nonempty suffix, its last character is the last
character of that suffix. -/
theorem strEndsWith_getLast {s e : String} (h : strEndsWith s e = true)
    (hne : e.toList ≠ []) : s.toList.getLast? = e.toList.getLast? := by
  unfold strEndsWith at h
  have hsuf : e.toList <:+ s.toList := by rwa [List.isSuffixOf_iff_suffix] at h
  obtain ⟨t, ht⟩ := hsuf
  rw [← ht, List.getLast?_append_of_ne_nil t hne]

/-- A path ending in ".webp" or ".heic" matches neither the image nor the
video extension regex: its last character is p or c, while every image
extension ends in g or f and every video extension in 4, v, i or m. -/
theorem not_image_video_of_webp_heic (p : String)
    (h : strEndsWith (pyLower p) ".webp" = true ∨ strEndsWith (pyLower p) ".heic" = true) :
    isImagePath p = false ∧ isVideoPath p = false := by
  have hl : (pyLower p).toList.getLast? = some 'p' ∨
      (pyLower p).toList.getLast? = some 'c' := by
    rcases h with h | h
    · left
      rw [strEndsWith_getLast h (by decide)]
      decide
    · right
      rw [strEndsWith_getLast h (by decide)]
      decide
  constructor
  · rw [Bool.eq_false_iff]
    intro him
    simp only [isImagePath, image_exts, List.any_eq_true, List.mem_cons,
      List.not_mem_nil, or_false] at him
    obtain ⟨e, he, hend⟩ := him
    have hlast := strEndsWith_getLast hend (by rcases he with h|h|h|h <;> subst h <;> decide)
    rcases hl with h2 | h2 <;> rw [h2] at hlast <;>
      rcases he with h|h|h|h <;> subst h <;> exact absurd hlast (by decide)
  · rw [Bool.eq_false_iff]
    intro hiv
    simp only [isVideoPath, video_exts, List.any_eq_true, List.mem_cons,
      List.not_mem_nil, or_false] at hiv
    obtain ⟨e, he, hend⟩ := hiv
    have hlast := strEndsWith_getLast hend (by rcases he with h|h|h|h <;> subst h <;> decide)
    rcases hl with h2 | h2 <;> rw [h2] at hlast <;>
      rcases he with h|h|h|h <;> subst h <;> exact absurd hlast (by decide)

theorem c7_witness :
    (generate_thumbnail (fun _ => some (some ⟨100, 40, 7⟩)) ⟨[]⟩ "ex/b.jpg"
        "kk.jpg").2.1.thumbs.lookup (thumbFilename "kk.jpg") = some (thumbOf ⟨100, 40, 7⟩) ∧
    (thumbOf ⟨100, 40, 7⟩).width = 292 ∧ (thumbOf ⟨100, 40, 7⟩).height = 292 :=
  have h := c7_thumbnail_square (fun _ => some (some ⟨100, 40, 7⟩)) ⟨[]⟩ "ex/b.jpg" "kk.jpg"
    ⟨100, 40, 7⟩ rfl rfl
  ⟨h.1, h.2.1, h.2.2.1⟩

/-- C10 (confirmed): per-file processing classifies purely by the anchored
case-insensitive extension regexes on the reference path, never by content:
image extensions get WebP conversion plus a thumbnail, video extensions get a
verbatim copy plus a thumbnail, everything else — including images already
stored as .webp or .heic — only a verbatim copy, with no conversion and no
thumbnail. -/
theorem c10_classification (ex : String → Bool) (xdir outdir : String) (m : ShortMap)
    (p : String) (q : Bool)
    (hd : strStartsWith p "data:image" = false) (hs : ex (pyJoin xdir p) = true) :
    (copy_file_to_distribution ex xdir outdir m p q).1 = true ∧
    (isImagePath p = true →
      (copy_file_to_distribution ex xdir outdir m p q).2.2 =
        [Effect.mkdirParents ((pyPath (pyJoin outdir (shorten_filename m p).1)).parent.toStr),
         Effect.convertWebp (pyJoin xdir p)
           (pyReplace (pyJoin outdir (shorten_filename m p).1)
             (pySuffixOf (pyPath (pyJoin outdir (shorten_filename m p).1)).name) ".webp"),
         Effect.thumbnail (pyJoin xdir p) (shorten_filename m p).1]) ∧
    (isImagePath p = false → isVideoPath p = true →
      (copy_file_to_distribution ex xdir outdir m p q).2.2 =
        [Effect.mkdirParents ((pyPath (pyJoin outdir (shorten_filename m p).1)).parent.toStr),
         Effect.copy2 (pyJoin xdir p) (pyJoin outdir (shorten_filename m p).1),
         Effect.thumbnail (pyJoin xdir p) (shorten_filename m p).1]) ∧
    (isImagePath p = false → isVideoPath p = false →
      (copy_file_to_distribution ex xdir outdir m p q).2.2 =
        [Effect.mkdirParents ((pyPath (pyJoin outdir (shorten_filename m p).1)).parent.toStr),
         Effect.copy2 (pyJoin xdir p) (pyJoin outdir (shorten_filename m p).1)]) ∧
    (strEndsWith (pyLower p) ".webp" = true ∨ strEndsWith (pyLower p) ".heic" = true →
      isImagePath p = false ∧ isVideoPath p = false) := by
  refine ⟨?_, fun hi => ?_, fun hi hv => ?_, fun hi hv => ?_, not_image_video_of_webp_heic p⟩
  · simp only [copy_file_to_distribution]
    rw [if_neg (by simp [hd]), hs, if_neg (by simp)]
    split
    · rfl
    · split <;> rfl
  · simp only [copy_file_to_distribution]
    rw [if_neg (by simp [hd]), hs, if_neg (by simp), if_pos hi]
  · simp only [copy_file_to_distribution]
    rw [if_neg (by simp [hd]), hs, if_neg (by simp), if_neg (by simp [hi]), if_pos hv]
  · simp only [copy_file_to_distribution]
    rw [if_neg (by simp [hd]), hs, if_neg (by simp), if_neg (by simp [hi]),
      if_neg (by simp [hv])]

theorem c10_witness :
    (copy_file_to_distribution (fun _ => true) "x" "o" [] "photo.JPG" true).1 = true :=
  (c10_classification (fun _ => true) "x" "o" [] "photo.JPG" true (by decide) rfl).1

/-- The Bool copy_file_to_distribution returns depends only on the data-URI
guard and on the existence of the joined source path. -/
theorem copy_fst (ex : String → Bool) (xdir outdir : String) (m : ShortMap) (p : String)
    (q : Bool) :
    (copy_file_to_distribution ex xdir outdir m p q).1 =
      (strStartsWith p "data:image" || ex (pyJoin xdir p)) := by
  simp only [copy_file_to_distribution]
  by_cases hd : strStartsWith p "data:image" = true
  · simp [hd]
  · rw [Bool.not_eq_true] at hd
    rw [if_neg (by simp [hd]), hd, Bool.false_or]
    by_cases he : ex (pyJoin xdir p) = true
    · rw [he, if_neg (by simp)]
      by_cases hi : isImagePath p = true
      · rw [if_pos hi]
      · rw [if_neg hi]
        by_cases hv : isVideoPath p = true
        · rw [if_pos hv]
        · rw [if_neg hv]
    · rw [Bool.not_eq_true] at he
      rw [he, if_pos rfl]

/-- The list of per-file Bools produced by the worker loop, as a map over the
reference list (the map state threads through but does not influence them). -/
theorem processAll_snd (ex : String → Bool) (xdir outdir : String) (fs : List String) :
    ∀ m, (processAll ex xdir outdir m fs).2 =
      fs.map fun f => strStartsWith f "data:image" || ex (pyJoin xdir f) := by
  induction fs with
  | nil => intro m; rfl
  | cons f t ih =>
    intro m
    simp only [processAll, List.map_cons]
    rw [copy_fst, ih]

/-- C8 (confirmed): a missing source file is never fatal: the copy returns
False for it — printing the warning exactly in the non-quiet mode, while the
worker pool runs with the default quiet=True — every other (existing) file in
the same media list still succeeds, and the whole run completes with exactly
the N successes among N+1 results. -/
theorem c8_missing_nonfatal (ex : String → Bool) (xdir outdir : String) (m : ShortMap)
    (missing : String) (files1 files2 : List String)
    (hmd : strStartsWith missing "data:image" = false)
    (hmiss : ex (pyJoin xdir missing) = false)
    (hok : ∀ f ∈ files1 ++ files2, ex (pyJoin xdir f) = true) :
    (copy_file_to_distribution ex xdir outdir m missing false).1 = false ∧
    (copy_file_to_distribution ex xdir outdir m missing false).2.2.contains
      (Effect.warnMissing (pyJoin xdir missing)) = true ∧
    countTrue (processAll ex xdir outdir m (files1 ++ missing :: files2)).2 =
      files1.length + files2.length ∧
    (processAll ex xdir outdir m (files1 ++ missing :: files2)).2.length =
      files1.length + files2.length + 1 := by
  refine ⟨?_, ?_, ?_, ?_⟩
  · rw [copy_fst, hmd, hmiss]
    rfl
  · simp only [copy_file_to_distribution]
    rw [if_neg (by simp [hmd]), hmiss]
    simp
  · rw [countTrue, processAll_snd, List.map_append, List.map_cons, List.countP_append,
      List.countP_cons, hmd, hmiss]
    have h1 : List.countP (fun b => b)
        (files1.map fun f => strStartsWith f "data:image" || ex (pyJoin xdir f)) =
        files1.length := by
      rw [List.countP_eq_length.mpr, List.length_map]
      intro b hb
      obtain ⟨f, hf, hfb⟩ := List.mem_map.mp hb
      rw [← hfb, hok f (List.mem_append_left _ hf)]
      simp
    have h2 : List.countP (fun b => b)
        (files2.map fun f => strStartsWith f "data:image" || ex (pyJoin xdir f)) =
        files2.length := by
      rw [List.countP_eq_length.mpr, List.length_map]
      intro b hb
      obtain ⟨f, hf, hfb⟩ := List.mem_map.mp hb
      rw [← hfb, hok f (List.mem_append_right _ hf)]
      simp
    rw [h1, h2]
    simp
  · rw [processAll_snd]
    simp
    omega

theorem c8_witness :
    (copy_file_to_distribution (fun s => !(s == "x/m.jpg")) "x" "o" [] "m.jpg" false).1 =
      false ∧
    countTrue (processAll (fun s => !(s == "x/m.jpg")) "x" "o" []
        (["a.jpg"] ++ "m.jpg" :: ["b.png"])).2 =
      (["a.jpg"] : List String).length + (["b.png"] : List String).length :=
  have h := c8_missing_nonfatal (fun s => !(s == "x/m.jpg")) "x" "o" [] "m.jpg"
    ["a.jpg"] ["b.png"] (by decide) (by decide) (by decide)
  ⟨h.1, h.2.2.1⟩

end MementoMori
